import Mathlib

/-!
Verification development for the contact-resolution pipeline
(src/config.py, src/crawl.py, src/extract.py, src/main.py, src/search.py,
src/sheet.py).

The Python sources are shallowly embedded: each relevant Python function is
translated into an executable Lean definition operating on `String` /
`List Char`.  External libraries (requests, BeautifulSoup, tldextract,
gspread) are modelled: HTTP responses become explicit values, HTML parsing
helpers are modelled on simple markup, and the public-suffix list is a fixed
snapshot containing the suffixes used in this development.  Python `dict`s
and `set`s are modelled as insertion-ordered duplicate-free association
lists; all theorems proved below are insensitive to the iteration-order
differences this introduces.
-/

namespace YSA

/-! ## ASCII / string primitives (models of Python `str` operations) -/

/-- Model of Python `str.lower` for ASCII characters. -/
def asciiLower (c : Char) : Char :=
  if 'A' ≤ c ∧ c ≤ 'Z' then Char.ofNat (c.toNat + 32) else c

/-- Lowercase a character list. -/
def lowerL (l : List Char) : List Char := l.map asciiLower

/-- Lowercase a string (Python `s.lower()` on ASCII input). -/
def lowerS (s : String) : String := ⟨lowerL s.data⟩

/-- Python whitespace characters (`str.strip`, regex `\s`), ASCII subset. -/
def isPyWS (c : Char) : Bool :=
  c = ' ' ∨ c = '\t' ∨ c = '\n' ∨ c = '\r' ∨ c = '\x0b' ∨ c = '\x0c'

/-- Python `str.strip()` on a character list. -/
def stripL (l : List Char) : List Char :=
  ((l.dropWhile (isPyWS ·)).reverse.dropWhile (isPyWS ·)).reverse

/-- Python `s.strip()`. -/
def stripS (s : String) : String := ⟨stripL s.data⟩

/-- `p` is a prefix of `l` (Python `s.startswith(p)`). -/
def startsWithL (l p : List Char) : Bool :=
  List.isPrefixOf p l

/-- `p` is a suffix of `l` (Python `s.endswith(p)`). -/
def endsWithL (l p : List Char) : Bool :=
  List.isPrefixOf p.reverse l.reverse

/-- Python substring test `needle in hay` (true for an empty needle). -/
def hasSub (hay needle : List Char) : Bool :=
  match hay with
  | [] => needle.isEmpty
  | _ :: t => startsWithL hay needle || hasSub t needle

/-- Substring test on strings. -/
def hasSubS (hay needle : String) : Bool := hasSub hay.data needle.data

/-- Python `s.startswith(p)` on strings. -/
def startsWithS (s p : String) : Bool := startsWithL s.data p.data

/-- Python `s.endswith(p)` on strings. -/
def endsWithS (s p : String) : Bool := endsWithL s.data p.data

/-- Split a character list at a separator character (Python `s.split(sep)`
for a one-character separator). -/
def splitChar (sep : Char) : List Char → List (List Char)
  | [] => [[]]
  | c :: t =>
    let r := splitChar sep t
    if c = sep then [] :: r
    else match r with
      | [] => [[c]]
      | h :: t' => (c :: h) :: t'

/-- First element of a split (Python `s.split(sep)[0]`). -/
def splitHead (sep : Char) (l : List Char) : List Char :=
  (splitChar sep l).headD []

/-- Last element of a split (Python `s.split(sep)[-1]`). -/
def splitLast (sep : Char) (l : List Char) : List Char :=
  (splitChar sep l).getLastD []

/-- Insert into an insertion-ordered duplicate-free list (model of Python
`set.add` / first-write-wins dict insertion). -/
def insertNew [DecidableEq α] (l : List α) (a : α) : List α :=
  if a ∈ l then l else l ++ [a]

/-! ## Character classes of the compiled regexes in the source -/

def isAsciiUpper (c : Char) : Bool := 'A' ≤ c ∧ c ≤ 'Z'
def isAsciiLowerC (c : Char) : Bool := 'a' ≤ c ∧ c ≤ 'z'
def isAsciiLetter (c : Char) : Bool := isAsciiUpper c || isAsciiLowerC c
def isAsciiDigit (c : Char) : Bool := '0' ≤ c ∧ c ≤ '9'

/-- Character class `[A-Z0-9._%+-]` of `EMAIL_RE` (compiled with `re.I`). -/
def isLocalChar (c : Char) : Bool :=
  isAsciiLetter c || isAsciiDigit c || c = '.' || c = '_' || c = '%' ||
    c = '+' || c = '-'

/-- Character class `[A-Z0-9.-]` of `EMAIL_RE` (compiled with `re.I`). -/
def isHostChar (c : Char) : Bool :=
  isAsciiLetter c || isAsciiDigit c || c = '.' || c = '-'

/-- Character class `[^\s"'>?#]` of `MAILTO_RE`. -/
def isMailtoChar (c : Char) : Bool :=
  ¬ (isPyWS c || c = '"' || c = '\'' || c = '>' || c = '?' || c = '#')

/-! ## `EMAIL_RE.findall` — a direct model of the backtracking semantics of
`[A-Z0-9._%+-]+@[A-Z0-9.-]+\.[A-Z]{2,}` with `re.I`. -/

/-- Try to match `[A-Z0-9.-]+\.[A-Z]{2,}` against the maximal host-char run
`run`: pick the rightmost dot index `k ≥ 1` such that at least two letters
follow it; return the matched host characters. -/
def emailHostMatch (run : List Char) : Option (List Char) :=
  let dots := (List.range run.length).filter fun i => run.getD i ' ' = '.'
  let rec tryDots : List Nat → Option (List Char)
    | [] => none
    | k :: ks =>
      if k ≥ 1 then
        let letters := (run.drop (k + 1)).takeWhile (isAsciiLetter ·)
        if letters.length ≥ 2 then some (run.take k ++ '.' :: letters)
        else tryDots ks
      else tryDots ks
  tryDots dots.reverse

/-- One attempt of `EMAIL_RE` at the head of `cs`: the local part is the
maximal run of local chars, then a literal `@`, then the host. Returns the
match and the remaining input after it. -/
def emailMatchAt (cs : List Char) : Option (List Char × List Char) :=
  let loc := cs.takeWhile (isLocalChar ·)
  if loc.isEmpty then none
  else match cs.drop loc.length with
    | '@' :: rest =>
      let run := rest.takeWhile (isHostChar ·)
      match emailHostMatch run with
      | some host =>
        some (loc ++ '@' :: host, rest.drop host.length)
      | none => none
    | _ => none

/-- Scanner loop for `EMAIL_RE.findall`, fuel-encoded (the fuel starts at
the input length and each step consumes at least one character, so it never
runs out). -/
def emailFindAllAux : Nat → List Char → List (List Char)
  | 0, _ => []
  | _, [] => []
  | fuel + 1, c :: t =>
    match emailMatchAt (c :: t) with
    | some (m, rest) => m :: emailFindAllAux fuel rest
    | none => emailFindAllAux fuel t

/-- `EMAIL_RE.findall(text)`: leftmost, non-overlapping matches. -/
def emailFindAll (cs : List Char) : List (List Char) :=
  emailFindAllAux cs.length cs

/-! ## `MAILTO_RE.findall` — model of `mailto:([^\s"'>?#]+)` with `re.I`. -/

/-- Scanner loop for `MAILTO_RE.findall`, fuel-encoded as above. -/
def mailtoFindAllAux : Nat → List Char → List (List Char)
  | 0, _ => []
  | _, [] => []
  | fuel + 1, c :: t =>
    if startsWithL (lowerL (c :: t)) "mailto:".data then
      let rest := (c :: t).drop 7
      let cap := rest.takeWhile (isMailtoChar ·)
      if cap.isEmpty then mailtoFindAllAux fuel t
      else cap :: mailtoFindAllAux fuel (rest.drop cap.length)
    else mailtoFindAllAux fuel t

/-- `MAILTO_RE.findall(html)`: scan for a case-insensitive `mailto:` and
capture the maximal nonempty run of permitted characters after it. -/
def mailtoFindAll (cs : List Char) : List (List Char) :=
  mailtoFindAllAux cs.length cs

/-! ## HTTP response model (external library `requests`)

A call of `requests.get` either yields a response — status code, headers of
interest, body text, reason phrase, final URL — or raises a transport-level
exception.  `src/crawl.py` and `src/main.py` only consult these fields. -/

inductive HttpOutcome where
  | resp (status : Nat) (contentType : String) (body : String)
      (reason : String) (finalUrl : String)
  | exc (msg : String)
deriving DecidableEq, Repr

/-- Status code of an HTTP outcome (none for a raised exception). -/
def statusOf : HttpOutcome → Option Nat
  | .resp s _ _ _ _ => some s
  | .exc _ => none

/-! ## Fetchers: `crawl._fetch` (src/crawl.py lines 55-65) and
`main.fetch` (src/main.py lines 109-119) -/

/-- `crawl._fetch(url)` given the outcome of the underlying HTTP GET:
returns `(html, error_message)`.  The body is returned exactly when the
status code is 200 and the lowercased content-type starts with `"text"`;
any other response becomes an error string, and a transport exception is
stringified. -/
def crawlFetch : HttpOutcome → Option String × Option String
  | .exc m => (none, some m)
  | .resp status ctype body reason finalUrl =>
    if status = 200 ∧ startsWithS (lowerS ctype) "text" then (some body, none)
    else (none, some (toString status ++ " Client Error: " ++ reason ++
      " for url: " ++ finalUrl))

/-- `main.fetch(url)` given the outcome of the underlying HTTP GET: returns
the body when the status is `< 400` and the content-type contains
`text/html` or `application/xhtml`, or the lowercased body contains
`<html`; otherwise `None`.  Any exception also yields `None`. -/
def mainFetch : HttpOutcome → Option String
  | .exc _ => none
  | .resp status ctype body _ _ =>
    if status ≥ 400 then none
    else
      let ct := lowerS ctype
      if ¬ (hasSubS ct "text/html" ∨ hasSubS ct "application/xhtml" ∨
            hasSubS (lowerS body) "<html") then none
      else some body

/-! ## `search._google_search` (src/search.py lines 37-75)

The loop is embedded with the per-attempt HTTP outcome supplied as a
function of the attempt index.  The model returns the final result
(`.ok items` or the re-raised last exception) together with the list of
sleep durations performed, in milliseconds, so backoff behaviour is
observable.  Exceptions are modelled as strings; `r.raise_for_status()`
raises exactly when the status code is ≥ 400. -/

/-- Retry statuses handled with backoff by `_google_search`. -/
def cseRetryStatuses : List Nat := [429, 500, 502, 503, 504]

/-- The `for attempt in range(tries)` loop of `_google_search`.
`get a` is the outcome of the HTTP call on attempt `a`; `remaining` is the
number of attempts left; `lastExc` and `sleeps` carry the loop state. -/
def googleSearchLoop (get : Nat → HttpOutcome) (delayMs tries : Nat) :
    Nat → Option String → List Nat → Except String (List String) × List Nat
  | 0, lastExc, sleeps =>
    (match lastExc with
     | some e => .error e
     | none => .ok [], sleeps)
  | remaining + 1, lastExc, sleeps =>
    let attempt := tries - (remaining + 1)
    match get attempt with
    | .exc m =>
      googleSearchLoop get delayMs tries remaining (some m)
        (sleeps ++ [delayMs * 2 ^ attempt])
    | .resp status _ body _ _ =>
      if status = 200 then (.ok (itemsOf body), sleeps)
      else if status ∈ cseRetryStatuses then
        googleSearchLoop get delayMs tries remaining lastExc
          (sleeps ++ [delayMs * 2 ^ attempt])
      else if status ≥ 400 then
        -- `r.raise_for_status()` raises; the exception is caught by the
        -- surrounding `except`, recorded, and the loop retries with backoff.
        googleSearchLoop get delayMs tries remaining
          (some ("HTTPError " ++ toString status))
          (sleeps ++ [delayMs * 2 ^ attempt])
      else
        -- status < 400 and ≠ 200: `raise_for_status()` is a no-op and the
        -- loop falls through to the next attempt without sleeping.
        googleSearchLoop get delayMs tries remaining lastExc sleeps
where
  /-- Model of `r.json().get("items", []) or []`: the decoded item links of
  a 200 response body.  Bodies are modelled as newline-separated links; an
  empty body decodes to no items. -/
  itemsOf (body : String) : List String :=
    ((splitChar '\n' body.data).map fun l => (⟨l⟩ : String)).filter
      (· ≠ "")

/-- `_google_search(query)` (src/search.py lines 37-75): unconfigured keys
short-circuit to `[]`; otherwise `delay = max(100, QPS_DELAY_MS)` and
`tries = max(1, MAX_RETRIES)` drive the retry loop. -/
def googleSearch (configured : Bool) (get : Nat → HttpOutcome)
    (qpsDelayMs maxRetries : Nat) :
    Except String (List String) × List Nat :=
  if ¬ configured then (.ok [], [])
  else
    let delay := max 100 qpsDelayMs
    let tries := max 1 maxRetries
    googleSearchLoop get delay tries tries none []

/-! ## Sheet scanning: `main.header_map` and `main.find_first_unprocessed`
(src/main.py lines 92-106) -/

/-- `header_map(headers)`: Python dict comprehension
`{h.strip(): i for i, h in enumerate(headers)}` — on duplicate (stripped)
headers the later index wins.  `headerIndex` is `h.get(name)`. -/
def headerIndex (headers : List String) (name : String) : Option Nat :=
  ((headers.enum.map fun p => (stripS p.2, p.1)).filter
      fun p => p.1 = name).getLast?.map Prod.snd

/-- The row-field access pattern of `find_first_unprocessed`:
`row[idx] if idx is not None and idx < len(row) else ""`. -/
def rowField (headers : List String) (name : String) (row : List String) :
    String :=
  match headerIndex headers name with
  | some idx => if idx < row.length then row.getD idx "" else ""
  | none => ""

/-- The scanning loop of `find_first_unprocessed`, carrying the
`enumerate(rows, start=2)` counter. -/
def findFirstUnprocessedFrom (headers : List String) :
    Nat → List (List String) → Nat
  | _, [] => 2
  | i, row :: rest =>
    let email := rowField headers "ContactEmail" row
    let form := rowField headers "ContactFormURL" row
    let status := rowField headers "Status" row
    if email = "" ∧ form = "" ∧ status ≠ "done" then i
    else findFirstUnprocessedFrom headers (i + 1) rest

/-- `find_first_unprocessed(headers, rows)` (src/main.py lines 95-106):
returns the sheet row number (starting at 2) of the first row with empty
ContactEmail, empty ContactFormURL and Status ≠ "done"; returns 2 when
every row is already processed. -/
def findFirstUnprocessed (headers : List String)
    (rows : List (List String)) : Nat :=
  findFirstUnprocessedFrom headers 2 rows

/-! ## URL parsing (model of `urllib.parse` on http(s)-style URLs)

`urlparse` is modelled for the URL shapes that occur in this code base:
absolute URLs `scheme://netloc[/path][?query][#fragment]` and scheme-less
strings (which urlparse places entirely in `path`).  The scheme is
lowercased, as urlparse does. -/

structure UrlParts where
  scheme : String
  netloc : String
  path : String
  query : String
  fragment : String
deriving DecidableEq, Repr

/-- Split `l` at the first occurrence of `sep`, if any. -/
def splitFirstSub (l sep : List Char) : Option (List Char × List Char) :=
  match l with
  | [] => if sep.isEmpty then some ([], []) else none
  | c :: t =>
    if startsWithL (c :: t) sep then some ([], (c :: t).drop sep.length)
    else match splitFirstSub t sep with
      | some (a, b) => some (c :: a, b)
      | none => none

/-- Model of `urllib.parse.urlparse`. -/
def urlparse (u : String) : UrlParts :=
  let (beforeFrag, frag) :=
    match splitFirstSub u.data ['#'] with
    | some (a, b) => (a, b)
    | none => (u.data, [])
  let (schemeL, rest) :=
    match splitFirstSub beforeFrag "://".data with
    | some (s, r) => (lowerL s, r)
    | none => ([], [])
  if schemeL.isEmpty then
    let (p, q) :=
      match splitFirstSub beforeFrag ['?'] with
      | some (a, b) => (a, b)
      | none => (beforeFrag, [])
    ⟨"", "", ⟨p⟩, ⟨q⟩, ⟨frag⟩⟩
  else
    let netloc := rest.takeWhile fun c => c ≠ '/' ∧ c ≠ '?'
    let afterNet := rest.drop netloc.length
    let (p, q) :=
      match splitFirstSub afterNet ['?'] with
      | some (a, b) => (a, b)
      | none => (afterNet, [])
    ⟨⟨schemeL⟩, ⟨netloc⟩, ⟨p⟩, ⟨q⟩, ⟨frag⟩⟩

/-- Model of `urllib.parse.urljoin` for the cases arising here: absolute
references, network-path (`//`), absolute-path (`/`), and plain relative
references resolved against the base's directory. -/
def urljoin (base href : String) : String :=
  if hasSubS href "://" then href
  else if startsWithS href "//" then (urlparse base).scheme ++ ":" ++ href
  else
    let b := urlparse base
    let origin := b.scheme ++ "://" ++ b.netloc
    if startsWithS href "/" then origin ++ href
    else
      let dir :=
        if hasSubS b.path "/" then
          ⟨(b.path.data.reverse.dropWhile fun c => c ≠ '/').reverse⟩
        else "/"
      origin ++ dir ++ href

/-! ## `tldextract` (external library) — modelled against a fixed snapshot
of the public-suffix list restricted to the suffixes this development
uses. -/

/-- Public-suffix snapshot (labels joined with dots). -/
def publicSuffixes : List String :=
  ["com", "net", "org", "io", "uk", "co.uk", "org.uk", "gov.uk", "gov",
   "edu", "de", "fr", "us", "ca", "au", "com.au", "info", "biz"]

structure TldParts where
  subdomain : String
  domain : String
  suffix : String
deriving DecidableEq, Repr

/-- Join labels with `'.'`. -/
def joinDots (labels : List (List Char)) : List Char :=
  match labels with
  | [] => []
  | [l] => l
  | l :: rest => l ++ '.' :: joinDots rest

/-- Model of `tldextract.extract(host)`: split the (lowercased) host on
dots and take the longest matching public suffix; the label before it is
the registrable domain, everything earlier the subdomain. -/
def tldextract (host : String) : TldParts :=
  let labels := splitChar '.' (lowerL host.data)
  let n := labels.length
  let ks := ((List.range n).map (· + 1)).reverse  -- n, n-1, ..., 1
  let kFound := ks.find? fun k =>
    decide ((⟨joinDots (labels.drop (n - k))⟩ : String) ∈ publicSuffixes)
  match kFound with
  | some k =>
    let front := labels.take (n - k)
    ⟨⟨joinDots front.dropLast⟩, ⟨(front.getLastD [])⟩,
      ⟨joinDots (labels.drop (n - k))⟩⟩
  | none =>
    ⟨⟨joinDots labels.dropLast⟩, ⟨labels.getLastD []⟩, ""⟩

/-- `_registrable_domain` (src/extract.py lines 41-51) and
`registrable_domain` (src/main.py lines 54-63), which are identical:
eTLD+1 of a URL or host. -/
def registrableDomain (s : String) : String :=
  if s = "" then ""
  else
    let host := if hasSubS s "://" then (urlparse s).netloc else s
    let ext := tldextract host
    if ext.domain = "" then lowerS host
    else if ext.suffix ≠ "" then lowerS (ext.domain ++ "." ++ ext.suffix)
    else lowerS ext.domain

/-- `same_reg_domain` (src/main.py lines 65-67). -/
def sameRegDomain (a b : String) : Bool :=
  let ra := registrableDomain a
  let rb := registrableDomain b
  ra ≠ "" ∧ rb ≠ "" ∧ ra = rb

/-! ## Block lists -/

/-- `BAD_HOSTS` of src/config.py (lines 106-109), used by src/search.py. -/
def configBadHosts : List String :=
  ["facebook.com", "m.facebook.com", "instagram.com", "twitter.com",
   "x.com", "linkedin.com", "youtube.com", "yelp.com", "wikipedia.org",
   "pinterest.com"]

/-- `BAD_HOSTS` of src/main.py (lines 39-43). -/
def mainBadHosts : List String :=
  ["facebook.com", "linkedin.com", "twitter.com", "x.com", "instagram.com",
   "youtube.com", "wikipedia.org", "reddit.com", "medium.com",
   "blogspot.com", "wordpress.com", "typepad.com", "pinterest.com",
   "foursquare.com", "yelp.com", "fda.gov", "amazon.com", "opentable.com"]

/-- `search._host` (src/search.py lines 25-29): lowercased netloc. -/
def searchHost (url : String) : String := lowerS (urlparse url).netloc

/-- `search._is_bad` (src/search.py lines 32-34): the host ends with some
blocked host. -/
def searchIsBad (url : String) : Bool :=
  configBadHosts.any fun bad => endsWithS (searchHost url) bad

/-! ## Site resolver: `main.find_official_site` (src/main.py lines 181-243)

The domain-hint fast path (lines 182-184) and the configuration check
(lines 186-187) are embedded concretely; the Google CSE query loops
(lines 188-243) are abstracted as `searchResolve`, invoked only when the
fast path does not fire and the CSE keys are configured. -/

def mainFindOfficialSite (cseConfigured : Bool)
    (searchResolve : Unit → Option String)
    (company domainHint : String) : Option String :=
  let _ := company
  if domainHint ≠ "" ∧ hasSubS domainHint "." ∧ ¬ hasSubS domainHint "/"
  then some ("https://" ++ lowerS (stripS domainHint))
  else if ¬ cseConfigured then none
  else searchResolve ()

/-- The claim's notion of a syntactically plausible bare domain, written
from the spec's words: contains a dot, no spaces, no embedded scheme
separator. -/
def specPlausibleBareDomain (hint : String) : Bool :=
  hint ≠ "" ∧ hasSubS hint "." ∧ ¬ hasSubS hint " " ∧ ¬ hasSubS hint "://"

/-! ## Contact hunter: `search.google_contact_hunt`
(src/search.py lines 144-217).  `searchFn` stands for `_google_search`
(returning the item links) and may raise — the code swallows the exception
and continues with no items. -/

/-- Query construction of `google_contact_hunt` (lines 157-183). `company`
and `location` are already stripped by the caller. -/
def contactHuntQueries (company location : String)
    (domainForSite : Option String) : List String :=
  let siteQs :=
    match domainForSite with
    | some d =>
      if d ≠ "" then
        let base := "site:" ++ lowerS (stripS d)
        [base ++ " contact", base ++ " contact us", base ++ " kontakt",
         base ++ " impressum", base ++ " privacy", base ++ " support"]
      else []
    | none => []
  let companyQs :=
    [company ++ " contact", company ++ " contact us", company ++ " email",
     company ++ " privacy"]
  let locQs :=
    if location ≠ "" then
      [company ++ " " ++ location ++ " contact",
       company ++ " " ++ location ++ " email"]
    else []
  siteQs ++ companyQs ++ locQs

/-- The per-item filtering loop of `google_contact_hunt` (lines 195-206):
skip empty or blocked links; keep links whose path contains a contact
token, or whose host ends with the known domain; dedupe via `seen`; stop
once `limit` results are collected. -/
def huntScanItems (domainForSite : Option String) (limit : Nat) :
    List String → List String × List String → List String × List String
  | [], st => st
  | link :: rest, (results, seen) =>
    let url := stripS link
    if url = "" ∨ searchIsBad url then
      huntScanItems domainForSite limit rest (results, seen)
    else
      let path := lowerS (urlparse url).path
      let keep :=
        (["contact", "kontakt", "impressum", "privacy"].any
            fun tok => hasSubS path tok) ||
          (match domainForSite with
           | some d => decide (d ≠ "") && endsWithS (searchHost url) (lowerS d)
           | none => false)
      if keep then
        if url ∈ seen then huntScanItems domainForSite limit rest (results, seen)
        else
          let results' := results ++ [url]
          let seen' := seen ++ [url]
          if results'.length ≥ limit then (results', seen')
          else huntScanItems domainForSite limit rest (results', seen')
      else huntScanItems domainForSite limit rest (results, seen)

/-- The per-query loop of `google_contact_hunt` (lines 188-210): a raising
search call contributes no items; stop once `limit` results exist. -/
def huntQueriesLoop (searchFn : String → Except Unit (List String))
    (domainForSite : Option String) (limit : Nat) :
    List String → List String × List String → List String
  | [], (results, _) => results
  | q :: qs, (results, seen) =>
    let items :=
      match searchFn q with
      | .ok its => its
      | .error _ => []
    let (results', seen') :=
      huntScanItems domainForSite limit items (results, seen)
    if results'.length ≥ limit then results'
    else huntQueriesLoop searchFn domainForSite limit qs (results', seen')

/-- `google_contact_hunt(company, location, domain_for_site, limit)`
(src/search.py lines 144-217). `maxCandidates` is the configured
`MAX_GOOGLE_CANDIDATES` (default 6). -/
def googleContactHunt (searchFn : String → Except Unit (List String))
    (company location : String) (domainForSite : Option String)
    (limit maxCandidates : Nat) : List String :=
  let company := stripS company
  let location := stripS location
  let limit := max 1 (min limit maxCandidates)
  huntQueriesLoop searchFn domainForSite limit
    (contactHuntQueries company location domainForSite) ([], [])

/-! ## Site crawler: src/crawl.py -/

/-- `_is_plausible_http_url` (src/crawl.py lines 86-109). -/
def isPlausibleHttpUrl (u : String) : Bool :=
  if u = "" then false
  else
    let u := stripS u
    let low := lowerS u
    if ["mailto:", "tel:", "javascript:", "data:", "about:"].any
        fun s => startsWithS low s then false
    else
      let p := urlparse u
      if ¬ (p.scheme = "http" ∨ p.scheme = "https") then false
      else if p.netloc = "" then false
      else
        let host : String := ⟨splitHead ':' (splitLast '@' p.netloc.data)⟩
        if host = "" ∨ hasSubS host " " ∨ startsWithS host "-" ∨
            endsWithS host "-" then false
        else decide ((tldextract host).suffix ≠ "")

/-- `_same_host` (src/crawl.py lines 75-83). -/
def sameHost (base href : String) : Bool :=
  let b := urlparse base
  let h := urlparse href
  let bhost := lowerS ⟨splitHead ':' b.netloc.data⟩
  let hnet := if h.netloc = "" then b.netloc else h.netloc
  let hhost := lowerS ⟨splitHead ':' hnet.data⟩
  if bhost = "" then true else endsWithS hhost bhost

/-- `_is_contactish` (src/crawl.py lines 112-122). -/
def isContactish (href : String) : Bool :=
  if href = "" then false
  else
    let h := lowerS href
    ["contact", "kontakt", "impressum", "privacy", "support", "help",
     "about", "team", "find-us", "where-to-find-us"].any
      fun tok => hasSubS h tok

/-- The anchor-filtering loop of `_discover_contactish_links`
(src/crawl.py lines 131-158), over the href values of the page's anchors. -/
def discoverLoop (base : String) (maxLinks : Nat) :
    List String → List String × List String → List String
  | [], (out, _) => out
  | a :: rest, (out, seen) =>
    let href := stripS a
    if href = "" then discoverLoop base maxLinks rest (out, seen)
    else
      let low := lowerS href
      if startsWithS low "#" ∨
          (["mailto:", "tel:", "javascript:", "data:", "about:"].any
            fun s => startsWithS low s) then
        discoverLoop base maxLinks rest (out, seen)
      else
        let absUrl := urljoin base href
        if ¬ isPlausibleHttpUrl absUrl then
          discoverLoop base maxLinks rest (out, seen)
        else if ¬ sameHost base absUrl then
          discoverLoop base maxLinks rest (out, seen)
        else if ¬ isContactish absUrl then
          discoverLoop base maxLinks rest (out, seen)
        else if absUrl ∈ seen then discoverLoop base maxLinks rest (out, seen)
        else
          let out' := out ++ [absUrl]
          if out'.length ≥ maxLinks then out'
          else discoverLoop base maxLinks rest (out', seen ++ [absUrl])

/-- `_discover_contactish_links(base_url, html, max_links)`
(src/crawl.py lines 125-158).  `findAnchors` models
`soup.find_all("a", href=True)` of the external HTML parser: the `href`
attribute values of the page's anchors, in document order. -/
def discoverContactishLinks (findAnchors : String → List String)
    (base html : String) (maxLinks : Nat) : List String :=
  discoverLoop base maxLinks (findAnchors html) ([], [])

/-- `_normalize` (src/crawl.py lines 161-167). -/
def normalizeUrl (url : String) : String :=
  if url = "" then url
  else
    let u := stripS url
    if startsWithS u "//" then "https:" ++ u else u

/-- `CONTACT_PATHS` (src/config.py lines 112-121), without env extras. -/
def contactPaths : List String :=
  ["/contact", "/contact/", "/contact-us", "/contact-us/", "/contactus",
   "/contact.html", "/contact.htm", "/contact.php",
   "/company/contact",
   "/get-in-touch", "/get-in-touch/", "/getintouch",
   "/support", "/help",
   "/about", "/about-us", "/find-us", "/where-to-find-us",
   "/privacy", "/privacy-policy", "/legal", "/imprint", "/impressum",
   "/team"]

/-- Keys of the insertion-ordered result map. -/
def pageKeys (out : List (String × String)) : List String := out.map Prod.fst

/-- The contact-path probing loop of `crawl_site` (src/crawl.py lines
192-205): stop once `fetched ≥ maxPages`; skip already-present URLs; count
only successful fetches. -/
def probeLoop (fetchFn : String → Option String) (maxPages : Nat)
    (root : String) :
    List String → List (String × String) → Nat → List (String × String) × Nat
  | [], out, fetched => (out, fetched)
  | p :: ps, out, fetched =>
    if fetched ≥ maxPages then (out, fetched)
    else
      let url := urljoin root p
      if url ∈ pageKeys out then probeLoop fetchFn maxPages root ps out fetched
      else
        match fetchFn url with
        | some h =>
          probeLoop fetchFn maxPages root ps (out ++ [(url, h)]) (fetched + 1)
        | none => probeLoop fetchFn maxPages root ps out fetched

/-- The discovered-link fetching loop of `crawl_site` (src/crawl.py lines
212-223). -/
def discFetchLoop (fetchFn : String → Option String) (maxPages : Nat) :
    List String → List (String × String) → Nat → List (String × String) × Nat
  | [], out, fetched => (out, fetched)
  | url :: us, out, fetched =>
    if fetched ≥ maxPages then (out, fetched)
    else if url ∈ pageKeys out ∨ ¬ isPlausibleHttpUrl url then
      discFetchLoop fetchFn maxPages us out fetched
    else
      match fetchFn url with
      | some h =>
        discFetchLoop fetchFn maxPages us (out ++ [(url, h)]) (fetched + 1)
      | none => discFetchLoop fetchFn maxPages us out fetched

/-- `crawl_site(start_url)` (src/crawl.py lines 172-226).  `fetchFn` is
`_fetch` composed with the network (returning the html on success), and
`maxPages` is the configured `MAX_PAGES_PER_SITE`.  The homepage is stored
in the result map without incrementing the `fetched` counter. -/
def crawlSite (fetchFn : String → Option String)
    (findAnchors : String → List String) (maxPages : Nat)
    (startUrl : String) : List (String × String) :=
  let start := normalizeUrl startUrl
  match fetchFn start with
  | none => []
  | some html =>
    let out := [(start, html)]
    let parsed := urlparse start
    let root := parsed.scheme ++ "://" ++ parsed.netloc
    let (out, fetched) := probeLoop fetchFn maxPages root contactPaths out 0
    let more := discoverContactishLinks findAnchors start html 50
    (discFetchLoop fetchFn maxPages more out fetched).1

/-! ## Orchestrator loop: `main.run` (src/main.py lines 306-434)

The per-row iteration of `run` performs spreadsheet writes
(`ws.update_cell(rownum, col, value)`, modelled as `CellWrite` records) and
may raise anywhere; the `for` loop contains no `try`/`except`, so a raise
aborts the whole loop with only the writes made so far performed. `runRows`
embeds exactly that control flow, with the body abstracted. -/

structure CellWrite where
  row : Nat
  col : Nat
  val : String
deriving DecidableEq, Repr

/-- The `for rownum in range(...)` loop of `run`: each body either
completes with its writes or raises, and a raise stops the loop — the
accumulated writes survive (they were already sent to the sheet), the
remaining rows are never processed, and no catch handler exists. -/
def runRows (body : Nat → Except String (List CellWrite)) :
    List Nat → List CellWrite → List CellWrite × Option String
  | [], acc => (acc, none)
  | r :: rs, acc =>
    match body r with
    | .ok ws => runRows body rs (acc ++ ws)
    | .error e => (acc, some e)

/-- Step 4 of `run` (src/main.py lines 391-419): decide
`(status, notes, best_email, best_form)` from the collected emails and
forms.  `emails` is the candidate set in iteration order
(`next(iter(emails))`), `forms` the collected list. -/
def decideOutcome (allowGuess : Bool) (emails forms : List String) :
    String × String × String × String :=
  let bestEmail := emails.headD ""
  let bestForm := forms.headD ""
  if bestEmail ≠ "" then
    ("email_found", "Found " ++ toString emails.length ++ " email(s)",
      bestEmail, bestForm)
  else if bestForm ≠ "" then
    ("form_found", "No email found; contact form available", bestEmail,
      bestForm)
  else if allowGuess then
    ("no_contact", "Would guess, but safe-mode skip", bestEmail, bestForm)
  else ("no_contact", "No email/form; guessing disabled", bestEmail, bestForm)

/-- Step 5 of `run` (src/main.py lines 421-428): the Status, LastChecked
and Notes cell writes for a row, emitted only for columns present in the
header. -/
def statusWrites (rownum : Nat) (idxStatus idxChecked idxNotes : Option Nat)
    (status now notes : String) : List CellWrite :=
  (match idxStatus with
   | some i => [⟨rownum, i + 1, status⟩]
   | none => []) ++
  (match idxChecked with
   | some i => [⟨rownum, i + 1, now⟩]
   | none => []) ++
  (match idxNotes with
   | some i => [⟨rownum, i + 1, notes⟩]
   | none => [])

/-! ## Extractor: src/extract.py -/

/-- Model of Python `html.unescape` restricted to the five standard named
entities (sufficient for the markup in this development; replacement is
single-pass, as in Python). -/
def htmlUnescapeAux : Nat → List Char → List Char
  | 0, l => l
  | _, [] => []
  | fuel + 1, c :: t =>
    if startsWithL (c :: t) "&amp;".data then
      '&' :: htmlUnescapeAux fuel ((c :: t).drop 5)
    else if startsWithL (c :: t) "&lt;".data then
      '<' :: htmlUnescapeAux fuel ((c :: t).drop 4)
    else if startsWithL (c :: t) "&gt;".data then
      '>' :: htmlUnescapeAux fuel ((c :: t).drop 4)
    else if startsWithL (c :: t) "&quot;".data then
      '"' :: htmlUnescapeAux fuel ((c :: t).drop 6)
    else if startsWithL (c :: t) "&#39;".data then
      '\'' :: htmlUnescapeAux fuel ((c :: t).drop 5)
    else c :: htmlUnescapeAux fuel t

/-- `html.unescape` on a character list. -/
def htmlUnescapeL (l : List Char) : List Char := htmlUnescapeAux l.length l

mutual
/-- Text-node scanner outside a tag (model of the external HTML parser on
simple markup without comments, script or style elements). -/
def textNodesGo : List Char → List Char → List (List Char)
  | [], acc => [acc.reverse]
  | '<' :: t, acc => acc.reverse :: textNodesSkip t
  | c :: t, acc => textNodesGo t (c :: acc)

/-- Text-node scanner inside a tag: skip until `>`. -/
def textNodesSkip : List Char → List (List Char)
  | [] => []
  | '>' :: t => textNodesGo t []
  | _ :: t => textNodesSkip t
end

/-- Join character lists with a single space. -/
def joinSpace : List (List Char) → List Char
  | [] => []
  | [l] => l
  | l :: rest => l ++ ' ' :: joinSpace rest

/-- Model of `BeautifulSoup(html, "html.parser").get_text(" ", strip=True)`
on simple markup: each text node is entity-unescaped and stripped, empty
nodes are dropped, and the rest are joined with a single space. -/
def getTextL (html : String) : List Char :=
  joinSpace (((textNodesGo html.data []).map
    fun n => stripL (htmlUnescapeL n)).filter fun n => ¬ n.isEmpty)

/-- `_extract_emails_from_html(html)` (src/extract.py lines 72-91): the
`mailto:` targets (unescaped, split at `?`, stripped, nonempty) and the
`EMAIL_RE` matches of the visible text, collected into a set (modelled as
an insertion-ordered duplicate-free list). -/
def extractEmailsFromHtml (html : String) : List String :=
  let afterMailto := (mailtoFindAll html.data).foldl
    (fun out m =>
      let e := stripL (splitHead '?' (htmlUnescapeL m))
      if e.isEmpty then out else insertNew out (⟨e⟩ : String))
    []
  (emailFindAll (getTextL html)).foldl
    (fun out m => insertNew out (⟨stripL m⟩ : String)) afterMailto

/-- `_looks_like_contact_url(url)` (src/extract.py lines 54-61). -/
def looksLikeContactUrl (url : String) : Bool :=
  let u := lowerS url
  if ["contact", "get-in-touch", "enquire", "inquiry", "kontakt",
      "impressum"].any fun k => hasSubS u k then true
  else
    -- `re.search(r"/(support|help)(/|$)", u)`
    hasSubS u "/support/" ∨ hasSubS u "/help/" ∨ endsWithS u "/support" ∨
      endsWithS u "/help"

/-- The page loop of `extract_contacts` (src/extract.py lines 152-168),
accumulating `(emails_all, email_sources, forms)`.  `soupContact html`
models `_looks_like_contact_title(soup) or _has_contact_form(soup)` on the
parsed page; non-string page values are skipped. -/
def extractLoop (soupContact : String → Bool) :
    List (String × Option String) →
    List String × List (String × String) × List String →
    List String × List (String × String) × List String
  | [], st => st
  | (url, html?) :: rest, (emailsAll, sources, forms) =>
    match html? with
    | none => extractLoop soupContact rest (emailsAll, sources, forms)
    | some html =>
      let found := extractEmailsFromHtml html
      let sources' := found.foldl
        (fun s e => if e ∈ s.map Prod.fst then s else s ++ [(e, url)]) sources
      let emailsAll' := found.foldl insertNew emailsAll
      let forms' :=
        if looksLikeContactUrl url ∨ soupContact html then
          insertNew forms url
        else forms
      extractLoop soupContact rest (emailsAll', sources', forms')

/-- Host part of an email for `_is_company_email`: Python
`e.split("@", 1)[1].lower()`, with the `IndexError` of an address without
`@` caught (→ `False` in the caller). -/
def emailHostPart (e : String) : Option String :=
  match splitFirstSub e.data ['@'] with
  | some (_, rest) => some (lowerS ⟨rest⟩)
  | none => none

/-- `_is_company_email(e)` (src/extract.py lines 171-177). -/
def isCompanyEmail (regBase : String) (e : String) : Bool :=
  match emailHostPart e with
  | none => false
  | some host =>
    let reg := registrableDomain host
    decide (regBase ≠ "") && endsWithS reg regBase

/-- Lexicographic code-point order on character lists (the order Python
`sorted` uses on strings). -/
def ltCharList : List Char → List Char → Bool
  | [], [] => false
  | [], _ :: _ => true
  | _ :: _, [] => false
  | a :: s, b :: t => if a < b then true else if b < a then false else ltCharList s t

/-- `a ≤ b` in the code-point order. -/
def leStr (a b : String) : Bool := ¬ ltCharList b.data a.data

/-- Insertion sort with the code-point order (Python `sorted`). -/
def insertSorted (a : String) : List String → List String
  | [] => [a]
  | b :: t => if leStr a b then a :: b :: t else b :: insertSorted a t

/-- Python `sorted` on strings. -/
def sortStr (l : List String) : List String := l.foldr insertSorted []

/-- Result shape of `extract_contacts`. -/
structure ExtractResult where
  emails : List String
  emailSources : List (String × String)
  forms : List String
  bestEmail : String
  bestForm : String
deriving DecidableEq, Repr

/-- The selection step of `extract_contacts` (src/extract.py lines
170-191): split the collected emails into company-domain-prioritized and
fallback, pick `best_email` and `best_form`, and assemble the result. -/
def selectContacts (preferCompanyDomain : Bool) (regBase : String)
    (acc : List String × List (String × String) × List String) :
    ExtractResult :=
  let emailsAll := acc.1
  let emailSources := acc.2.1
  let forms := acc.2.2
  let prioritized := emailsAll.filter
    fun e => ¬ preferCompanyDomain ∨ isCompanyEmail regBase e
  let fallback := emailsAll.filter fun e => e ∉ prioritized
  let bestEmail :=
    match prioritized with
    | e :: _ => e
    | [] => match fallback with
      | e :: _ => e
      | [] => ""
  let bestForm := forms.headD ""
  { emails := sortStr prioritized ++ sortStr fallback
    emailSources := emailSources
    forms := sortStr forms
    bestEmail := bestEmail
    bestForm := bestForm }

/-- `extract_contacts(pages, base_url, location, preferred_domain)`
(src/extract.py lines 117-191).  `preferCompanyDomain` is the configured
`PREFER_COMPANY_DOMAIN`; `location` is accepted and unused, as in the
source; `Option` values model Python `None`, and Python falsy-tests treat
`""` like `None`. -/
def extractContacts (preferCompanyDomain : Bool)
    (soupContact : String → Bool) (pages : List (String × Option String))
    (baseUrl? location? preferredDomain? : Option String) : ExtractResult :=
  let _ := location?
  let pref := (preferredDomain?.getD "")
  let given := (baseUrl?.getD "")
  let baseUrl :=
    if given ≠ "" then given
    else if pref ≠ "" then pref
    else match pages with
      | (u, _) :: _ => u
      | [] => ""
  let regBase := registrableDomain (if pref ≠ "" then pref else baseUrl)
  selectContacts preferCompanyDomain regBase
    (extractLoop soupContact pages ([], [], []))

/-! # Theorems -/

/-! ## C10: fully processed sheet restarts at row 2 -/

/-- Helper for C10: when no row satisfies the unprocessed test, the scan
falls through to its final `return 2` regardless of the running counter. -/
theorem findFromAllProcessed (headers : List String) :
    ∀ (rows : List (List String)) (i : Nat),
    (∀ row ∈ rows,
      rowField headers "ContactEmail" row ≠ "" ∨
      rowField headers "ContactFormURL" row ≠ "" ∨
      rowField headers "Status" row = "done") →
    findFirstUnprocessedFrom headers i rows = 2 := by
  intro rows
  induction rows with
  | nil => intro i _; rfl
  | cons row rest ih =>
    intro i h
    have hrow := h row (List.mem_cons_self row rest)
    have hcond : ¬ (rowField headers "ContactEmail" row = "" ∧
        rowField headers "ContactFormURL" row = "" ∧
        rowField headers "Status" row ≠ "done") := by
      rcases hrow with h1 | h1 | h1
      · exact fun hc => h1 hc.1
      · exact fun hc => h1 hc.2.1
      · exact fun hc => hc.2.2 h1
    simp only [findFirstUnprocessedFrom, if_neg hcond]
    exact ih (i + 1) fun r hr => h r (List.mem_cons_of_mem row hr)

/-- Claim C10: if every data row of the sheet already has a nonempty
ContactEmail, a nonempty ContactFormURL, or Status equal to `"done"`, then
`find_first_unprocessed` returns 2 (the first data row), so a fully
processed sheet restarts processing from the top rather than signalling
that no work remains. -/
theorem c10_fully_processed_sheet_restarts_at_top
    (headers : List String) (rows : List (List String))
    (h : ∀ row ∈ rows,
      rowField headers "ContactEmail" row ≠ "" ∨
      rowField headers "ContactFormURL" row ≠ "" ∨
      rowField headers "Status" row = "done") :
    findFirstUnprocessed headers rows = 2 :=
  findFromAllProcessed headers rows 2 h

/-- Witness for C10 at a concrete fully processed sheet. -/
theorem c10_witness :
    findFirstUnprocessed
      ["Company", "ContactEmail", "ContactFormURL", "Status"]
      [["Acme", "info@acme.com", "", ""],
       ["Globex", "", "https://globex.com/contact", ""],
       ["Initech", "", "", "done"]] = 2 :=
  c10_fully_processed_sheet_restarts_at_top
    ["Company", "ContactEmail", "ContactFormURL", "Status"]
    [["Acme", "info@acme.com", "", ""],
     ["Globex", "", "https://globex.com/contact", ""],
     ["Initech", "", "", "done"]]
    (by decide)

/-! ## C4: fetcher success condition -/

/-- Claim C4 counterexample: `crawl._fetch` does NOT return the body
exactly on 2xx + text/html.  A 201 response with content-type `text/html`
yields an error string instead of the body, and a 200 response with
content-type `text/plain` yields the body even though it is not
text/html (and neither failure is a typed error — it is a message
string). -/
theorem c4_counterexample :
    crawlFetch (.resp 201 "text/html" "<p>ok</p>" "Created" "https://a.com/x")
      = (none, some "201 Client Error: Created for url: https://a.com/x") ∧
    crawlFetch (.resp 200 "text/plain" "hello" "OK" "https://a.com/y")
      = (some "hello", none) := by
  constructor <;> rfl

/-- Claim C4 as amended: `crawl._fetch` returns the body exactly when the
status code is 200 (not any 2xx) and the lowercased content-type starts
with `"text"` (any text/*, not only html); every other response and every
transport exception yields `None` plus an error-message string, not a
typed error.  `main.fetch` returns the body exactly when the status is
< 400 and the content-type contains text/html or application/xhtml or the
body contains `<html`; otherwise it returns `None` with no error value at
all. -/
theorem c4_fetch_success_characterization (status : Nat)
    (ctype body reason url msg : String) :
    ((crawlFetch (.resp status ctype body reason url)).1 = some body ↔
      (status = 200 ∧ startsWithS (lowerS ctype) "text" = true)) ∧
    crawlFetch (.exc msg) = (none, some msg) ∧
    (mainFetch (.resp status ctype body reason url) = some body ↔
      (status < 400 ∧
        (hasSubS (lowerS ctype) "text/html" = true ∨
         hasSubS (lowerS ctype) "application/xhtml" = true ∨
         hasSubS (lowerS body) "<html" = true))) ∧
    mainFetch (.exc msg) = none := by
  refine ⟨?_, rfl, ?_, rfl⟩
  · by_cases h : status = 200 ∧ startsWithS (lowerS ctype) "text" = true
    · simp [crawlFetch, h]
    · simp only [crawlFetch]
      rw [if_neg (by simpa using h)]
      simp [h]
  · by_cases h4 : status ≥ 400
    · simp only [mainFetch]
      rw [if_pos h4]
      constructor
      · intro h; exact absurd h (by simp)
      · intro h; omega
    · by_cases hct : hasSubS (lowerS ctype) "text/html" = true ∨
          hasSubS (lowerS ctype) "application/xhtml" = true ∨
          hasSubS (lowerS body) "<html" = true
      · simp only [mainFetch]
        rw [if_neg h4, if_neg (not_not_intro hct)]
        exact ⟨fun _ => ⟨by omega, hct⟩, fun _ => rfl⟩
      · simp only [mainFetch]
        rw [if_neg h4, if_pos hct]
        constructor
        · intro h; exact absurd h (by simp)
        · intro h; exact absurd h.2 hct

/-! ## C7: domain-hint fast path of the resolver -/

/-- Claim C7 counterexample: `"acme.com/contact"` satisfies the claim's
plausibility test (it has a dot, no spaces and no scheme separator), yet
the resolver does not return `https://acme.com/contact` — the code tests
for `/`, not for spaces or `://`, so it falls through to the search path
(here: unconfigured, hence `None`).  Moreover, for a plausible hint with
uppercase letters the code returns the lowercased URL, not
`https://<domain_hint>` verbatim. -/
theorem c7_counterexample :
    (specPlausibleBareDomain "acme.com/contact" = true ∧
      mainFindOfficialSite false (fun _ => none) "Acme" "acme.com/contact"
        = none) ∧
    (specPlausibleBareDomain "Acme.com" = true ∧
      mainFindOfficialSite false (fun _ => none) "Acme" "Acme.com"
        = some "https://acme.com" ∧
      ("https://acme.com" : String) ≠ "https://" ++ "Acme.com") := by
  refine ⟨⟨by decide, by decide⟩, ⟨by decide, by decide, by decide⟩⟩

/-- Claim C7 as amended: for every company name and every domain hint that
contains a dot and no `/` character (the code's actual test — it checks
neither for spaces nor for `://`), the resolver returns
`https://` followed by the stripped, lowercased hint, without consulting
the search configuration or issuing any search call (the result is
independent of both). -/
theorem c7_hint_fast_path (company hint : String) (cfg cfg' : Bool)
    (sr sr' : Unit → Option String)
    (h1 : hint ≠ "") (h2 : hasSubS hint "." = true)
    (h3 : hasSubS hint "/" = false) :
    mainFindOfficialSite cfg sr company hint
      = some ("https://" ++ lowerS (stripS hint)) ∧
    mainFindOfficialSite cfg sr company hint
      = mainFindOfficialSite cfg' sr' company hint := by
  have hcond : hint ≠ "" ∧ hasSubS hint "." = true ∧
      ¬ hasSubS hint "/" = true := ⟨h1, h2, by simp [h3]⟩
  constructor
  · simp only [mainFindOfficialSite, if_pos hcond]
  · simp only [mainFindOfficialSite, if_pos hcond]

/-- Witness for C7 at the spec's own scenario: domain hint `acme.co.uk`
resolves to `https://acme.co.uk` with no search call (any configuration
and any search oracle give the same answer). -/
theorem c7_witness :
    mainFindOfficialSite true (fun _ => some "https://search.example")
        "Acme" "acme.co.uk" = some "https://acme.co.uk" ∧
    mainFindOfficialSite true (fun _ => some "https://search.example")
        "Acme" "acme.co.uk"
      = mainFindOfficialSite false (fun _ => none) "Acme" "acme.co.uk" :=
  c7_hint_fast_path "Acme" "acme.co.uk" true false
    (fun _ => some "https://search.example") (fun _ => none)
    (by decide) (by decide) (by decide)

/-! ## C3: an exception in the row loop aborts the run -/

/-- Claim C3 counterexample: the per-row loop of `main.run` has no
`try`/`except`.  With two rows to process and an exception raised while
processing the first, the run aborts with the exception: no write at all
is performed — the failing row gets neither an `Error:<kind>` Status nor a
LastChecked, and the second row is never processed — even though the same
body would have written a Status, LastChecked and Notes for the second
row had it been reached. -/
theorem c3_counterexample :
    runRows
      (fun r => if r = 2 then .error "RequestException: connection reset"
        else .ok (statusWrites r (some 6) (some 7) (some 8) "no_contact"
          "2026-10-12 00:00:00 UTC" "No email/form; guessing disabled"))
      [2, 3] []
      = ([], some "RequestException: connection reset") ∧
    runRows
      (fun r => if r = 2 then .error "RequestException: connection reset"
        else .ok (statusWrites r (some 6) (some 7) (some 8) "no_contact"
          "2026-10-12 00:00:00 UTC" "No email/form; guessing disabled"))
      [3] []
      = ([⟨3, 7, "no_contact"⟩, ⟨3, 8, "2026-10-12 00:00:00 UTC"⟩,
          ⟨3, 9, "No email/form; guessing disabled"⟩], none) := by
  constructor <;> rfl

/-- Claim C3 as amended: an unexpected exception while processing one
company's row propagates out of the loop and aborts the run.  The rows
processed before the failing one keep the writes they received; the
failing row and all later rows receive nothing — in particular no
`Error:<kind>` Status and no LastChecked.  Moreover the status vocabulary
the orchestrator can write is exactly
{email_found, form_found, no_contact}; no `Error:<kind>` status exists. -/
theorem c3_row_exception_aborts_run
    (body : Nat → Except String (List CellWrite))
    (pre : List Nat) (r : Nat) (rest : List Nat) (e : String)
    (acc : List CellWrite)
    (hpre : ∀ x ∈ pre, ∃ ws, body x = .ok ws)
    (hr : body r = .error e) :
    (runRows body (pre ++ r :: rest) acc).2 = some e ∧
    (runRows body (pre ++ r :: rest) acc).1 = (runRows body pre acc).1 ∧
    (∀ (allowGuess : Bool) (emails forms : List String),
      (decideOutcome allowGuess emails forms).1
        ∈ ["email_found", "form_found", "no_contact"]) := by
  have key : ∀ (pre' : List Nat) (acc' : List CellWrite),
      (∀ x ∈ pre', ∃ ws, body x = .ok ws) →
      runRows body (pre' ++ r :: rest) acc'
        = ((runRows body pre' acc').1, some e) := by
    intro pre'
    induction pre' with
    | nil => intro acc' _; simp [runRows, hr]
    | cons x t ih =>
      intro acc' hok
      obtain ⟨ws, hws⟩ := hok x (List.mem_cons_self x t)
      simp only [List.cons_append, runRows, hws]
      exact ih (acc' ++ ws) fun y hy => hok y (List.mem_cons_of_mem x hy)
  refine ⟨by rw [key pre acc hpre], by rw [key pre acc hpre], ?_⟩
  intro allowGuess emails forms
  simp only [decideOutcome]
  split_ifs <;> simp

/-- Witness for C3's amended statement: a concrete run where row 2
succeeds, row 3 raises, and row 4 is pending. -/
theorem c3_witness :
    (runRows
        (fun r => if r = 3 then .error "boom"
          else .ok [⟨r, 7, "no_contact"⟩]) ([2] ++ 3 :: [4]) []).2
      = some "boom" ∧
    (runRows
        (fun r => if r = 3 then .error "boom"
          else .ok [⟨r, 7, "no_contact"⟩]) ([2] ++ 3 :: [4]) []).1
      = (runRows
          (fun r => if r = 3 then .error "boom"
            else .ok [⟨r, 7, "no_contact"⟩]) [2] []).1 ∧
    (∀ (allowGuess : Bool) (emails forms : List String),
      (decideOutcome allowGuess emails forms).1
        ∈ ["email_found", "form_found", "no_contact"]) :=
  c3_row_exception_aborts_run
    (fun r => if r = 3 then .error "boom" else .ok [⟨r, 7, "no_contact"⟩])
    [2] 3 [4] "boom" []
    (by intro x hx; simp at hx; subst hx; exact ⟨[⟨2, 7, "no_contact"⟩], rfl⟩)
    rfl

/-! ## C9: extract_contacts is total and skips non-string pages -/

/-- Helper for C9: the page loop ignores entries whose value is not a
string — it computes the same accumulator as on the string-valued
sublist. -/
theorem extractLoopSkipsNonStrings (soupContact : String → Bool) :
    ∀ (pages : List (String × Option String))
      (st : List String × List (String × String) × List String),
    extractLoop soupContact pages st
      = extractLoop soupContact (pages.filter fun e => e.2.isSome) st := by
  intro pages
  induction pages with
  | nil => intro st; rfl
  | cons p rest ih =>
    intro st
    obtain ⟨url, html?⟩ := p
    obtain ⟨ea, so, fo⟩ := st
    cases html? with
    | none => simpa [extractLoop] using ih (ea, so, fo)
    | some html => simp [extractLoop, ih]

/-- Helper for C9: the page loop leaves the accumulator unchanged when
every page value is a non-string. -/
theorem extractLoopAllNone (soupContact : String → Bool) :
    ∀ (pages : List (String × Option String))
      (st : List String × List (String × String) × List String),
    (∀ e ∈ pages, e.2 = none) → extractLoop soupContact pages st = st := by
  intro pages
  induction pages with
  | nil => intro st _; rfl
  | cons p rest ih =>
    intro st h
    obtain ⟨url, html?⟩ := p
    obtain ⟨ea, so, fo⟩ := st
    have hp : html? = none := h (url, html?) (List.mem_cons_self _ _)
    subst hp
    exact ih (ea, so, fo) fun e he => h e (List.mem_cons_of_mem _ he)

/-- Claim C9: `extract_contacts` is total at its public interface — page
entries whose value is not a string are skipped rather than raising (the
loop behaves as if restricted to the string-valued entries), and for an
empty or all-non-string mapping it returns empty email and form lists with
`best_email = ""` and `best_form = ""`. -/
theorem c9_extract_contacts_total (preferCD : Bool)
    (soupContact : String → Bool) (pages : List (String × Option String))
    (b l p : Option String)
    (st : List String × List (String × String) × List String) :
    (extractLoop soupContact pages st
      = extractLoop soupContact (pages.filter fun e => e.2.isSome) st) ∧
    ((∀ e ∈ pages, e.2 = none) →
      extractContacts preferCD soupContact pages b l p
        = ⟨[], [], [], "", ""⟩) := by
  refine ⟨extractLoopSkipsNonStrings soupContact pages st, fun h => ?_⟩
  simp only [extractContacts, extractLoopAllNone soupContact pages _ h]
  cases preferCD <;> rfl

/-- Witness for C9 at a mapping whose only value is a non-string. -/
theorem c9_witness :
    extractContacts true (fun _ => false)
        [("https://acme.com", none)] none none none
      = ⟨[], [], [], "", ""⟩ :=
  (c9_extract_contacts_total true (fun _ => false)
    [("https://acme.com", none)] none none none ([], [], [])).2 (by decide)

/-! ## C2: page-count bound of the crawler -/

/-- Invariant of the contact-path probing loop: the result map grows by
exactly the number of counted fetches, and the counter never exceeds
`maxPages` (given it does not at entry). -/
theorem probeLoopInvariant (f : String → Option String) (maxPages : Nat)
    (root : String) :
    ∀ (ps : List String) (out : List (String × String)) (fetched : Nat),
    fetched ≤ maxPages →
    (probeLoop f maxPages root ps out fetched).1.length + fetched
        = out.length + (probeLoop f maxPages root ps out fetched).2 ∧
      (probeLoop f maxPages root ps out fetched).2 ≤ maxPages := by
  intro ps
  induction ps with
  | nil => intro out fetched h; exact ⟨rfl, h⟩
  | cons p rest ih =>
    intro out fetched h
    by_cases hstop : fetched ≥ maxPages
    · simp only [probeLoop, if_pos hstop]
      exact ⟨trivial, h⟩
    · simp only [probeLoop, if_neg hstop]
      by_cases hmem : urljoin root p ∈ pageKeys out
      · rw [if_pos hmem]; exact ih out fetched h
      · rw [if_neg hmem]
        split
        · rename_i html _
          obtain ⟨ha, hb⟩ :=
            ih (out ++ [(urljoin root p, html)]) (fetched + 1) (by omega)
          refine ⟨?_, hb⟩
          simp only [List.length_append, List.length_cons, List.length_nil]
            at ha
          omega
        · exact ih out fetched h

/-- Invariant of the discovered-link loop, identical in shape. -/
theorem discFetchLoopInvariant (f : String → Option String)
    (maxPages : Nat) :
    ∀ (us : List String) (out : List (String × String)) (fetched : Nat),
    fetched ≤ maxPages →
    (discFetchLoop f maxPages us out fetched).1.length + fetched
        = out.length + (discFetchLoop f maxPages us out fetched).2 ∧
      (discFetchLoop f maxPages us out fetched).2 ≤ maxPages := by
  intro us
  induction us with
  | nil => intro out fetched h; exact ⟨rfl, h⟩
  | cons u rest ih =>
    intro out fetched h
    by_cases hstop : fetched ≥ maxPages
    · simp only [discFetchLoop, if_pos hstop]
      exact ⟨trivial, h⟩
    · simp only [discFetchLoop, if_neg hstop]
      by_cases hskip : u ∈ pageKeys out ∨ ¬ isPlausibleHttpUrl u = true
      · rw [if_pos hskip]; exact ih out fetched h
      · rw [if_neg hskip]
        split
        · rename_i html _
          obtain ⟨ha, hb⟩ := ih (out ++ [(u, html)]) (fetched + 1) (by omega)
          refine ⟨?_, hb⟩
          simp only [List.length_append, List.length_cons, List.length_nil]
            at ha
          omega
        · exact ih out fetched h

/-- Claim C2 counterexample: with `MAX_PAGES_PER_SITE = 1`, a site whose
homepage and `/contact` probe both fetch successfully yields a result map
with 2 entries — the homepage is stored without being counted against the
page cap, so the map has `MAX_PAGES_PER_SITE + 1 > MAX_PAGES_PER_SITE`
entries. -/
theorem c2_counterexample :
    (crawlSite (fun _ => some "ok") (fun _ => []) 1 "https://a.com").length
      = 2 ∧ 1 < 2 :=
  ⟨by rfl, by omega⟩

/-- Claim C2 as amended: for every fetch behaviour, every anchor structure
and every start URL, `crawl_site` returns a result map with at most
`MAX_PAGES_PER_SITE + 1` entries — the homepage plus at most
`MAX_PAGES_PER_SITE` counted successful fetches (the cap
`MAX_PAGES_PER_SITE` itself can be exceeded by exactly the uncounted
homepage, as the counterexample shows). -/
theorem c2_crawl_page_bound (fetchFn : String → Option String)
    (findAnchors : String → List String) (maxPages : Nat)
    (startUrl : String) :
    (crawlSite fetchFn findAnchors maxPages startUrl).length
      ≤ maxPages + 1 := by
  cases hf : fetchFn (normalizeUrl startUrl) with
  | none =>
    have heq : crawlSite fetchFn findAnchors maxPages startUrl = [] := by
      simp [crawlSite, hf]
    simp [heq]
  | some html =>
    have heq : crawlSite fetchFn findAnchors maxPages startUrl =
        (discFetchLoop fetchFn maxPages
          (discoverContactishLinks findAnchors (normalizeUrl startUrl)
            html 50)
          (probeLoop fetchFn maxPages
            ((urlparse (normalizeUrl startUrl)).scheme ++ "://" ++
              (urlparse (normalizeUrl startUrl)).netloc)
            contactPaths [(normalizeUrl startUrl, html)] 0).1
          (probeLoop fetchFn maxPages
            ((urlparse (normalizeUrl startUrl)).scheme ++ "://" ++
              (urlparse (normalizeUrl startUrl)).netloc)
            contactPaths [(normalizeUrl startUrl, html)] 0).2).1 := by
      simp [crawlSite, hf]
    rw [heq]
    obtain ⟨h1, h2⟩ := probeLoopInvariant fetchFn maxPages
      ((urlparse (normalizeUrl startUrl)).scheme ++ "://" ++
        (urlparse (normalizeUrl startUrl)).netloc)
      contactPaths [(normalizeUrl startUrl, html)] 0 (Nat.zero_le _)
    obtain ⟨h3, h4⟩ := discFetchLoopInvariant fetchFn maxPages
      (discoverContactishLinks findAnchors (normalizeUrl startUrl) html 50)
      (probeLoop fetchFn maxPages
        ((urlparse (normalizeUrl startUrl)).scheme ++ "://" ++
          (urlparse (normalizeUrl startUrl)).netloc)
        contactPaths [(normalizeUrl startUrl, html)] 0).1
      (probeLoop fetchFn maxPages
        ((urlparse (normalizeUrl startUrl)).scheme ++ "://" ++
          (urlparse (normalizeUrl startUrl)).netloc)
        contactPaths [(normalizeUrl startUrl, html)] 0).2 h2
    simp only [List.length_cons, List.length_nil] at h1
    omega

/-! ## C8: block-list exclusion -/

/-- Invariant of the item-scanning loop of the contact hunter: it only
ever appends URLs that passed the `_is_bad` filter. -/
theorem huntScanItemsNoBad (domainForSite : Option String) (limit : Nat) :
    ∀ (items : List String) (results seen : List String),
    (∀ u ∈ results, searchIsBad u = false) →
    ∀ u ∈ (huntScanItems domainForSite limit items (results, seen)).1,
      searchIsBad u = false := by
  intro items
  induction items with
  | nil => intro results seen hres u hu; exact hres u hu
  | cons link rest ih =>
    intro results seen hres
    simp only [huntScanItems]
    by_cases hskip : stripS link = "" ∨ searchIsBad (stripS link) = true
    · rw [if_pos hskip]; exact ih results seen hres
    · rw [if_neg hskip]
      have hgood : searchIsBad (stripS link) = false := by
        rcases Bool.eq_false_or_eq_true (searchIsBad (stripS link)) with h | h
        · exact absurd (Or.inr h) hskip
        · exact h
      split
      · by_cases hseen : stripS link ∈ seen
        · rw [if_pos hseen]; exact ih results seen hres
        · rw [if_neg hseen]
          have hres' : ∀ u ∈ results ++ [stripS link],
              searchIsBad u = false := by
            intro u hu
            rcases List.mem_append.mp hu with h | h
            · exact hres u h
            · rw [List.mem_singleton.mp h]; exact hgood
          by_cases hlim : (results ++ [stripS link]).length ≥ limit
          · rw [if_pos hlim]; exact hres'
          · rw [if_neg hlim]
            exact ih (results ++ [stripS link]) (seen ++ [stripS link]) hres'
      · exact ih results seen hres

/-- Invariant of the query loop: the hunter's output URLs all passed the
`_is_bad` filter. -/
theorem huntQueriesLoopNoBad (searchFn : String → Except Unit (List String))
    (domainForSite : Option String) (limit : Nat) :
    ∀ (qs : List String) (results seen : List String),
    (∀ u ∈ results, searchIsBad u = false) →
    ∀ u ∈ huntQueriesLoop searchFn domainForSite limit qs (results, seen),
      searchIsBad u = false := by
  intro qs
  induction qs with
  | nil => intro results seen hres u hu; exact hres u hu
  | cons q rest ih =>
    intro results seen hres
    simp only [huntQueriesLoop]
    have hscan := huntScanItemsNoBad domainForSite limit
      (match searchFn q with | .ok its => its | .error _ => [])
      results seen hres
    split
    · exact hscan
    · exact ih _ _ hscan

/-- Claim C8 counterexample: the resolver's domain-hint fast path performs
no block-list check — given `facebook.com` as the Domain hint it returns
`https://facebook.com`, whose host is in the block-list both of
src/main.py (by registrable domain) and of src/config.py (by host
suffix). -/
theorem c8_counterexample :
    mainFindOfficialSite false (fun _ => none) "Acme" "facebook.com"
      = some "https://facebook.com" ∧
    registrableDomain "https://facebook.com" ∈ mainBadHosts ∧
    searchIsBad "https://facebook.com" = true := by
  refine ⟨by decide, by decide, by decide⟩

/-- Claim C8 as amended: the contact hunter never returns a URL whose host
ends with a blocked host — for every search behaviour, company, location,
known domain and limits, every URL in `google_contact_hunt`'s output
passes the `_is_bad` filter.  (The resolver's search-result paths filter
the block-list too, but its domain-hint fast path returns
`https://<hint>` unchecked, as the counterexample shows.) -/
theorem c8_hunter_never_returns_blocked
    (searchFn : String → Except Unit (List String))
    (company location : String) (domainForSite : Option String)
    (limit maxCandidates : Nat) (url : String)
    (hmem : url ∈ googleContactHunt searchFn company location domainForSite
      limit maxCandidates) :
    searchIsBad url = false := by
  have := huntQueriesLoopNoBad searchFn domainForSite
    (max 1 (min limit maxCandidates))
    (contactHuntQueries (stripS company) (stripS location) domainForSite)
    [] [] (by intro u hu; exact absurd hu (List.not_mem_nil u))
  exact this url hmem

/-- Witness for C8 at the spec's scenario 6: a provider returning
`facebook.com/acme` and `acme.com/contact` with known domain `acme.com`
yields exactly `acme.com/contact`, and that URL is not blocked. -/
theorem c8_witness :
    googleContactHunt
        (fun _ => .ok ["https://facebook.com/acme",
          "https://acme.com/contact"])
        "Acme" "" (some "acme.com") 4 6
      = ["https://acme.com/contact"] ∧
    searchIsBad "https://acme.com/contact" = false := by
  refine ⟨by rfl, ?_⟩
  exact c8_hunter_never_returns_blocked
    (fun _ => .ok ["https://facebook.com/acme", "https://acme.com/contact"])
    "Acme" "" (some "acme.com") 4 6 "https://acme.com/contact"
    (by rw [(by rfl : googleContactHunt
        (fun _ => .ok ["https://facebook.com/acme",
          "https://acme.com/contact"])
        "Acme" "" (some "acme.com") 4 6 = ["https://acme.com/contact"])]
        ; exact List.mem_singleton.mpr rfl)

/-! ## C6: deduplication of extracted emails -/

/-- `insertNew` preserves duplicate-freedom. -/
theorem insertNewNodup [DecidableEq α] (l : List α) (a : α)
    (h : l.Nodup) : (insertNew l a).Nodup := by
  unfold insertNew
  split
  · exact h
  · rename_i hmem
    rw [List.nodup_append]
    exact ⟨h, List.nodup_singleton a,
      fun x hx hxa => hmem ((List.mem_singleton.mp hxa) ▸ hx)⟩

/-- Folding `insertNew` preserves duplicate-freedom. -/
theorem foldlInsertNewNodup [DecidableEq α] :
    ∀ (xs acc : List α), acc.Nodup → (xs.foldl insertNew acc).Nodup := by
  intro xs
  induction xs with
  | nil => intro acc h; exact h
  | cons x t ih => intro acc h; exact ih (insertNew acc x) (insertNewNodup acc x h)

/-- The first-write-wins source fold keeps its key list duplicate-free. -/
theorem sourcesFoldKeysNodup :
    ∀ (found : List String) (s : List (String × String)) (url : String),
    (s.map Prod.fst).Nodup →
    ((found.foldl
        (fun s e => if e ∈ s.map Prod.fst then s else s ++ [(e, url)])
        s).map Prod.fst).Nodup := by
  intro found
  induction found with
  | nil => intro s url h; exact h
  | cons e t ih =>
    intro s url h
    simp only [List.foldl]
    by_cases hmem : e ∈ s.map Prod.fst
    · rw [if_pos hmem]; exact ih s url h
    · rw [if_neg hmem]
      refine ih (s ++ [(e, url)]) url ?_
      rw [List.map_append, List.nodup_append]
      refine ⟨h, by simp, ?_⟩
      intro x hx hxe
      have hxeq : x = e := by simpa using hxe
      exact hmem (hxeq ▸ hx)

/-- The extraction loop keeps the email set, the source keys and the form
set duplicate-free. -/
theorem extractLoopNodup (sc : String → Bool) :
    ∀ (pages : List (String × Option String)) (ea : List String)
      (so : List (String × String)) (fo : List String),
    ea.Nodup → (so.map Prod.fst).Nodup → fo.Nodup →
    (extractLoop sc pages (ea, so, fo)).1.Nodup ∧
      ((extractLoop sc pages (ea, so, fo)).2.1.map Prod.fst).Nodup ∧
      (extractLoop sc pages (ea, so, fo)).2.2.Nodup := by
  intro pages
  induction pages with
  | nil => intro ea so fo h1 h2 h3; exact ⟨h1, h2, h3⟩
  | cons pg rest ih =>
    intro ea so fo h1 h2 h3
    obtain ⟨url, html?⟩ := pg
    cases html? with
    | none => simpa [extractLoop] using ih ea so fo h1 h2 h3
    | some html =>
      simp only [extractLoop]
      apply ih
      · exact foldlInsertNewNodup _ ea h1
      · exact sourcesFoldKeysNodup _ so url h2
      · split
        · exact insertNewNodup fo url h3
        · exact h3

/-- Inserting into a sorted list is a permutation of consing. -/
theorem insertSortedPerm (a : String) :
    ∀ l : List String, (insertSorted a l).Perm (a :: l)
  | [] => List.Perm.refl _
  | b :: t => by
    unfold insertSorted
    split
    · exact List.Perm.refl _
    · exact ((insertSortedPerm a t).cons b).trans (List.Perm.swap a b t)

/-- `sortStr` permutes its input. -/
theorem sortStrPerm : ∀ l : List String, (sortStr l).Perm l
  | [] => List.Perm.refl _
  | x :: t => by
    simp only [sortStr, List.foldr]
    exact (insertSortedPerm x _).trans ((sortStrPerm t).cons x)

/-- Appending the sorted copies of two disjoint duplicate-free lists is
duplicate-free. -/
theorem appendSortedNodup (P F : List String) (hP : P.Nodup) (hF : F.Nodup)
    (hd : ∀ x ∈ F, x ∉ P) : (sortStr P ++ sortStr F).Nodup := by
  rw [List.nodup_append]
  refine ⟨((sortStrPerm P).nodup_iff).mpr hP,
    ((sortStrPerm F).nodup_iff).mpr hF, ?_⟩
  intro x hxP hxF
  exact hd x ((sortStrPerm F).mem_iff.mp hxF) ((sortStrPerm P).mem_iff.mp hxP)

/-- Claim C6 counterexample: deduplication is NOT by lowercase address.
A page carrying the same address as `mailto:Info@acme.com` and as visible
text `info@acme.com` — the two spellings differing only in letter case —
produces a candidate list with both spellings: the address appears twice
up to case. -/
theorem c6_counterexample :
    (extractContacts true (fun _ => false)
      [("https://acme.com/contact",
        some "<a href=\"mailto:Info@acme.com\">Email us</a> info@acme.com")]
      none none (some "acme.com")).emails
      = ["Info@acme.com", "info@acme.com"] ∧
    lowerS "Info@acme.com" = lowerS "info@acme.com" ∧
    ("Info@acme.com" : String) ≠ "info@acme.com" := by
  refine ⟨by rfl, by rfl, by decide⟩

/-- Claim C6 as amended: candidates are deduplicated by exact,
case-sensitive address — for every page map and configuration, the
returned email list contains each exact address at most once (occurrences
of the same exact string via mailto and visible text collapse), and the
source map has at most one entry per exact address (the first seen);
addresses differing only in case remain distinct candidates. -/
theorem c6_dedup_by_exact_address (preferCD : Bool)
    (soupContact : String → Bool) (pages : List (String × Option String))
    (b l p : Option String) :
    (extractContacts preferCD soupContact pages b l p).emails.Nodup ∧
    ((extractContacts preferCD soupContact pages b l p).emailSources.map
      Prod.fst).Nodup := by
  obtain ⟨hea, hso, hfo⟩ := extractLoopNodup soupContact pages [] [] []
    List.nodup_nil (by simp) List.nodup_nil
  constructor
  · have heq : (extractContacts preferCD soupContact pages b l p).emails
        = sortStr ((extractLoop soupContact pages ([], [], [])).1.filter _)
          ++ sortStr
            ((extractLoop soupContact pages ([], [], [])).1.filter _) := rfl
    rw [heq]
    refine appendSortedNodup _ _ (hea.filter _) (hea.filter _) ?_
    intro x hx
    exact of_decide_eq_true (List.mem_filter.mp hx).2
  · have heq : (extractContacts preferCD soupContact pages b l p).emailSources
        = (extractLoop soupContact pages ([], [], [])).2.1 := rfl
    rw [heq]
    exact hso

/-! ## C1: blocked local-parts are never filtered -/

/-- The extraction loop's email set and source map do not depend on the
soup-based contact signal (which only affects the form list). -/
theorem extractLoopScIrrel (sc sc' : String → Bool) :
    ∀ (pages : List (String × Option String)) (ea : List String)
      (so : List (String × String)) (fo fo' : List String),
    (extractLoop sc pages (ea, so, fo)).1
        = (extractLoop sc' pages (ea, so, fo')).1 ∧
      (extractLoop sc pages (ea, so, fo)).2.1
        = (extractLoop sc' pages (ea, so, fo')).2.1 := by
  intro pages
  induction pages with
  | nil => intro ea so fo fo'; exact ⟨rfl, rfl⟩
  | cons pg rest ih =>
    intro ea so fo fo'
    obtain ⟨url, html?⟩ := pg
    cases html? with
    | none => simpa [extractLoop] using ih ea so fo fo'
    | some html =>
      simp only [extractLoop]
      exact ih _ _ _ _

/-- `selectContacts` reads only the email set and source map for its
`emails`, `bestEmail` and `emailSources` fields. -/
theorem selectContactsOnlyEmails (pcd : Bool) (rb : String)
    (t t' : List String × List (String × String) × List String)
    (h1 : t.1 = t'.1) (h2 : t.2.1 = t'.2.1) :
    (selectContacts pcd rb t).emails = (selectContacts pcd rb t').emails ∧
      (selectContacts pcd rb t).bestEmail
        = (selectContacts pcd rb t').bestEmail ∧
      (selectContacts pcd rb t).emailSources
        = (selectContacts pcd rb t').emailSources := by
  obtain ⟨ea, so, fo⟩ := t
  obtain ⟨ea', so', fo'⟩ := t'
  cases h1
  cases h2
  exact ⟨rfl, rfl, rfl⟩

/-- Claim C1: the code violates it.  The spec (and the code's own
`BAD_PREFIXES` list in src/config.py, documented "Bad/no-reply style
prefixes to ignore", which no module ever uses) requires dropping
disposable/bounce local-parts, but `extract_contacts` applies no such
filter: a page map whose only address is `noreply@acme.com` yields that
address as the single candidate email AND as `best_email`, for every
`PREFER_COMPANY_DOMAIN` setting and every contact-title/form signal,
instead of the required zero valid candidates. -/
theorem c1_noreply_not_filtered (soupContact : String → Bool)
    (preferCD : Bool) :
    (extractContacts preferCD soupContact
      [("https://acme.com/contact", some "Email: noreply@acme.com")]
      none none (some "acme.com")).emails = ["noreply@acme.com"] ∧
    (extractContacts preferCD soupContact
      [("https://acme.com/contact", some "Email: noreply@acme.com")]
      none none (some "acme.com")).bestEmail = "noreply@acme.com" := by
  obtain ⟨h1, h2⟩ := extractLoopScIrrel soupContact (fun _ => false)
    [("https://acme.com/contact", some "Email: noreply@acme.com")] [] [] [] []
  obtain ⟨he, hb, -⟩ := selectContactsOnlyEmails preferCD
    (registrableDomain "acme.com") _ _ h1 h2
  refine ⟨?_, ?_⟩
  · rw [show (extractContacts preferCD soupContact
        [("https://acme.com/contact", some "Email: noreply@acme.com")]
        none none (some "acme.com")).emails
        = (extractContacts preferCD (fun _ => false)
          [("https://acme.com/contact", some "Email: noreply@acme.com")]
          none none (some "acme.com")).emails from he]
    cases preferCD <;> rfl
  · rw [show (extractContacts preferCD soupContact
        [("https://acme.com/contact", some "Email: noreply@acme.com")]
        none none (some "acme.com")).bestEmail
        = (extractContacts preferCD (fun _ => false)
          [("https://acme.com/contact", some "Email: noreply@acme.com")]
          none none (some "acme.com")).bestEmail from hb]
    cases preferCD <;> rfl

/-! ## C5: retry/backoff semantics of the search wrapper -/

/-- Helper for C5: when every attempt yields a retryable status (429/5xx),
the loop sleeps `delay * 2^attempt` after each attempt and finally returns
the recorded last exception, or `ok []` when none was recorded. -/
theorem gsLoopAllRetry (get : Nat → HttpOutcome) (delay tries s : Nat)
    (hs : s ∈ cseRetryStatuses)
    (hall : ∀ a < tries, ∃ ct bd rs u, get a = .resp s ct bd rs u) :
    ∀ (remaining : Nat), remaining ≤ tries →
    ∀ (lastExc : Option String) (sleeps : List Nat),
    googleSearchLoop get delay tries remaining lastExc sleeps
      = ((match lastExc with
          | some e => .error e
          | none => .ok []),
         sleeps ++ (List.range' (tries - remaining) remaining).map
           fun a => delay * 2 ^ a) := by
  have hne200 : s ≠ 200 := by
    intro hEq
    subst hEq
    simp [cseRetryStatuses] at hs
  intro remaining
  induction remaining with
  | zero =>
    intro _ lastExc sleeps
    simp [googleSearchLoop]
  | succ n ih =>
    intro hle lastExc sleeps
    obtain ⟨ct, bd, rs, u, hg⟩ := hall (tries - (n + 1)) (by omega)
    simp only [googleSearchLoop, hg]
    rw [if_neg hne200, if_pos hs,
      ih (by omega) lastExc (sleeps ++ [delay * 2 ^ (tries - (n + 1))])]
    rw [List.append_assoc, List.singleton_append]
    have harg : tries - (n + 1) + 1 = tries - n := by omega
    rw [List.range'_succ, harg, List.map_cons]

/-- Helper for C5: when every attempt yields the same non-retryable
HTTP-error status (≥ 400, not in the retry set), each attempt raises via
`raise_for_status`, the exception is caught, a backoff sleep is performed
and the query retried; after the final attempt the last exception is
re-raised. -/
theorem gsLoopAllHttpError (get : Nat → HttpOutcome) (delay tries s : Nat)
    (hs : s ∉ cseRetryStatuses) (h4 : 400 ≤ s)
    (hall : ∀ a < tries, ∃ ct bd rs u, get a = .resp s ct bd rs u) :
    ∀ (remaining : Nat), remaining ≤ tries → 1 ≤ remaining →
    ∀ (lastExc : Option String) (sleeps : List Nat),
    googleSearchLoop get delay tries remaining lastExc sleeps
      = (.error ("HTTPError " ++ toString s),
         sleeps ++ (List.range' (tries - remaining) remaining).map
           fun a => delay * 2 ^ a) := by
  have hne200 : s ≠ 200 := by omega
  intro remaining
  induction remaining with
  | zero => intro _ h1; omega
  | succ n ih =>
    intro hle _ lastExc sleeps
    obtain ⟨ct, bd, rs, u, hg⟩ := hall (tries - (n + 1)) (by omega)
    simp only [googleSearchLoop, hg]
    rw [if_neg hne200, if_neg hs, if_pos (by omega : s ≥ 400)]
    cases n with
    | zero =>
      simp [googleSearchLoop, List.range'_one]
    | succ m =>
      rw [ih (by omega) (by omega) (some ("HTTPError " ++ toString s))
        (sleeps ++ [delay * 2 ^ (tries - (m + 1 + 1))])]
      rw [List.append_assoc, List.singleton_append]
      have harg : tries - (m + 1 + 1) + 1 = tries - (m + 1) := by omega
      conv_rhs => rw [List.range'_succ, harg, List.map_cons]

/-- Claim C5 counterexample: a non-retryable 400 (malformed request)
response is NOT surfaced immediately.  Its `raise_for_status` exception is
caught by the surrounding handler, a backoff sleep is performed, and the
query is retried — here the second attempt returns an items payload, so
the caller never sees the 400 at all. -/
theorem c5_counterexample :
    googleSearch true
      (fun a => if a = 0 then .resp 400 "" "" "Bad Request" "u"
        else .resp 200 "" "https://ok.example/1" "OK" "u") 800 5
      = (.ok ["https://ok.example/1"], [800]) := by rfl

/-- Claim C5 as amended: rate-limit (429) and server-error (5xx) responses
are retried with exponential backoff — the sleep after attempt `a` is
`delay * 2^a` with `delay = max(100, GOOGLE_CSE_QPS_DELAY_MS)` — up to
`max(1, GOOGLE_CSE_MAX_RETRIES)` attempts, after which the query yields no
items rather than an error; a non-retryable error response (e.g. a
malformed-request 4xx) is NOT surfaced immediately: its exception is
caught, the query is retried on the same backoff schedule, and the last
error is raised only after the final attempt. -/
theorem c5_retry_backoff_semantics (qps retries : Nat)
    (get badGet : Nat → HttpOutcome) (s s' : Nat)
    (hs : s ∈ cseRetryStatuses)
    (hall : ∀ a < max 1 retries, ∃ ct bd rs u, get a = .resp s ct bd rs u)
    (hs' : s' ∉ cseRetryStatuses) (h4 : 400 ≤ s')
    (hall' : ∀ a < max 1 retries,
      ∃ ct bd rs u, badGet a = .resp s' ct bd rs u) :
    googleSearch true get qps retries
      = (.ok [], (List.range (max 1 retries)).map
          fun a => max 100 qps * 2 ^ a) ∧
    googleSearch true badGet qps retries
      = (.error ("HTTPError " ++ toString s'),
         (List.range (max 1 retries)).map
           fun a => max 100 qps * 2 ^ a) := by
  constructor
  · have hdef : googleSearch true get qps retries
        = googleSearchLoop get (max 100 qps) (max 1 retries)
          (max 1 retries) none [] := rfl
    rw [hdef, gsLoopAllRetry get (max 100 qps) (max 1 retries) s hs hall
      (max 1 retries) (le_refl _) none [], Nat.sub_self,
      List.range_eq_range']
    rfl
  · have hdef : googleSearch true badGet qps retries
        = googleSearchLoop badGet (max 100 qps) (max 1 retries)
          (max 1 retries) none [] := rfl
    rw [hdef, gsLoopAllHttpError badGet (max 100 qps) (max 1 retries) s'
      hs' h4 hall' (max 1 retries) (le_refl _) (by omega) none [],
      Nat.sub_self, List.range_eq_range']
    rfl

/-- Witness for C5's amended statement: with delay 800 ms and 2 retries,
two 429 responses yield `ok []` after backoff sleeps of 800 then 1600 ms
(doubling), and two 400 responses yield the re-raised HTTP error after
the same backoff schedule. -/
theorem c5_witness :
    googleSearch true (fun _ => .resp 429 "" "" "Too Many Requests" "u")
        800 2 = (.ok [], [800, 1600]) ∧
    googleSearch true (fun _ => .resp 400 "" "" "Bad Request" "u") 800 2
      = (.error "HTTPError 400", [800, 1600]) := by
  have h := c5_retry_backoff_semantics 800 2
    (fun _ => .resp 429 "" "" "Too Many Requests" "u")
    (fun _ => .resp 400 "" "" "Bad Request" "u") 429 400
    (by decide) (fun a _ => ⟨"", "", "Too Many Requests", "u", rfl⟩)
    (by decide) (by decide)
    (fun a _ => ⟨"", "", "Bad Request", "u", rfl⟩)
  obtain ⟨h1, h2⟩ := h
  exact ⟨by rw [h1]; rfl, by rw [h2]; rfl⟩
